import Mathlib

/-!
Shallow embedding of `src/covid_dashboard.py`.

The program fetches two wide CSV tables (rows = geographic units, one column
per date, cells = cumulative counts), reshapes them to long form summed per
(country, date), derives per-country day-over-day deltas, and renders charts
and per-country metric cards for a user-selected country set.

Dates are modelled as natural numbers (the CSV date headers parse to totally
ordered calendar dates); counts are integers.
-/

namespace CovidDashboard

/-- A row of the raw wide table: identifying columns
`Province/State, Country/Region, Lat, Long` followed by one cumulative value
per date column. -/
structure RawRow where
  province : String
  country : String
  lat : Int
  long : Int
  values : List Int
deriving Repr, DecidableEq

/-- The raw wide table: the list of date-column labels and the data rows.
A well-formed table has `values.length = dates.length` for every row. -/
structure WideTable where
  dates : List Nat
  rows : List RawRow
deriving Repr, DecidableEq

/-- One row of the melted frame produced by `df.melt(id_vars=[...])`:
the id columns plus a `Date` and a `Cases` value. -/
structure MeltedRow where
  province : String
  country : String
  lat : Int
  long : Int
  date : Nat
  cases : Int
deriving Repr, DecidableEq

/-- A row of the long table returned by `process_data`:
`(Country/Region, Date, Cases)`. -/
structure LongRow where
  country : String
  date : Nat
  cases : Int
deriving Repr, DecidableEq

/-- A long-table row augmented with the `Daily` column added by
`calculate_daily_cases`. -/
structure DailyRow where
  country : String
  date : Nat
  cases : Int
  daily : Int
deriving Repr, DecidableEq

/-- The block of melted rows contributed by the date column at index `j`
with label `d`: one melted row per raw row, in the original row order. -/
def meltCol (rows : List RawRow) (j : Nat) (d : Nat) : List MeltedRow :=
  rows.map fun r =>
    { province := r.province, country := r.country, lat := r.lat,
      long := r.long, date := d, cases := r.values.getD j 0 }

/-- Stack the date columns starting at column index `j`. -/
def meltCols (rows : List RawRow) : Nat → List Nat → List MeltedRow
  | _, [] => []
  | j, d :: ds => meltCol rows j d ++ meltCols rows (j + 1) ds

/-- Pandas `df.melt(id_vars=['Province/State','Country/Region','Lat','Long'],
var_name='Date', value_name='Cases')`: pandas stacks the value columns one
after the other, each keeping the original row order. -/
def melt (t : WideTable) : List MeltedRow :=
  meltCols t.rows 0 t.dates

/-- Lexicographic order on `(Country/Region, Date)` group keys; pandas
`groupby` sorts group keys ascending. String order is the character-wise
lexicographic order (`String.lt` is by definition `List.lt` on `.data`). -/
def keyLe (a b : String × Nat) : Bool :=
  decide (a.1.data < b.1.data ∨ (a.1 = b.1 ∧ a.2 ≤ b.2))

/-- The sum of the `Cases` column over the melted rows in one
`(Country/Region, Date)` group. -/
def groupSum (m : List MeltedRow) (k : String × Nat) : Int :=
  ((m.filter fun r => r.country == k.1 && r.date == k.2).map fun r => r.cases).sum

/-- The sorted, de-duplicated group keys of
`groupby(['Country/Region','Date'])`. -/
def groupKeys (m : List MeltedRow) : List (String × Nat) :=
  ((m.map fun r => (r.country, r.date)).mergeSort keyLe).dedup

/-- String order used by python `sorted` on country names
(`a ≤ b` on strings is by definition `¬ b < a`). -/
def strLe (a b : String) : Bool := decide (¬ b.data < a.data)

/-- Function `process_data`: melt the wide table, convert dates, group by
`(Country/Region, Date)` summing `Cases`, and also return the sorted unique
country list. -/
def process_data (t : WideTable) : List LongRow × List String :=
  let m := melt t
  let long := (groupKeys m).map fun k =>
    { country := k.1, date := k.2, cases := groupSum m k }
  let countries := ((long.map fun r => r.country).dedup).mergeSort strLe
  (long, countries)

/-- Comparison used by `df.sort_values('Date')`. -/
def dateLe (a b : LongRow) : Bool := decide (a.date ≤ b.date)

/-- The expression `groupby('Country/Region')['Cases'].diff().fillna(0)` over a frame in a
fixed row order: walk the rows, keeping for each country the last `Cases`
value seen; a row whose country was seen before gets
`cases - previous cases`, a country's first row gets `0`. -/
def addDaily : List (String × Int) → List LongRow → List DailyRow
  | _, [] => []
  | seen, r :: rest =>
    let d : Int :=
      match seen.lookup r.country with
      | some prev => r.cases - prev
      | none => 0
    { country := r.country, date := r.date, cases := r.cases, daily := d } ::
      addDaily ((r.country, r.cases) :: seen) rest

/-- Function `calculate_daily_cases`: sort by `Date` (stable), then the per-country
`diff().fillna(0)` producing the `Daily` column. -/
def calculate_daily_cases (rows : List LongRow) : List DailyRow :=
  addDaily [] (rows.mergeSort dateLe)

/-- Outcome of `pd.read_csv(url)` inside `fetch_data`: either a parsed table
or an exception message. -/
inductive FetchResult where
  | ok (t : WideTable)
  | err (msg : String)
deriving Repr, DecidableEq

/-- Function `fetch_data`: return the parsed table, or `None` when the read raised. -/
def fetch_data : FetchResult → Option WideTable
  | .ok t => some t
  | .err _ => none

/-- The `st.error` messages emitted by `fetch_data` itself. -/
def fetchMessages : FetchResult → List String
  | .ok _ => []
  | .err e => ["Failed to fetch data: " ++ e]

/-- The `Daily | Cumulative` radio toggle. -/
inductive MetricType where
  | daily
  | cumulative
deriving Repr, DecidableEq

/-- The label of the chosen metric mode. -/
def metricName : MetricType → String
  | .daily => "Daily"
  | .cumulative => "Cumulative"

/-- The dataframe column plotted on the y axis:
`'Daily' if metric_type == "Daily" else 'Cases'`. -/
def yField : MetricType → String
  | .daily => "Daily"
  | .cumulative => "Cases"

/-- A rendered plotly line chart: the filtered frame handed to `px.line`
with its axis/colour/title arguments. -/
structure Chart where
  data : List DailyRow
  x : String
  y : String
  color : String
  title : String
deriving Repr, DecidableEq

/-- One `st.metric` card in the Latest Statistics section: the country label
and the two `.iloc[-1]` lookups, `none` when the looked-up frame slice is
empty (the python code would raise `IndexError` there). -/
structure MetricCard where
  country : String
  cases : Option Int
  deaths : Option Int
deriving Repr, DecidableEq

/-- Everything `main` hands to streamlit in one render cycle. -/
structure Output where
  errors : List String
  warnings : List String
  charts : List Chart
  metrics : List MetricCard
deriving Repr, DecidableEq

/-- Function `main`: fetch both tables (halting with an error when either fetch
returned no data), process them, add daily columns, validate the selection
(halting with a warning when it is empty), filter both daily tables to the
selected countries, render the two line charts, and render one metric card
per selected country from the `.iloc[-1]` of that country's slice of each
filtered table. -/
def main (cfetch dfetch : FetchResult) (selected : List String)
    (metric : MetricType) : Output :=
  match fetch_data cfetch, fetch_data dfetch with
  | some cdf, some ddf =>
    let confirmedCountry := calculate_daily_cases (process_data cdf).1
    let deathsCountry := calculate_daily_cases (process_data ddf).1
    if selected.isEmpty then
      { errors := fetchMessages cfetch ++ fetchMessages dfetch,
        warnings := ["Please select at least one country to visualize data."],
        charts := [], metrics := [] }
    else
      let confirmedFiltered :=
        confirmedCountry.filter fun r => selected.contains r.country
      let deathsFiltered :=
        deathsCountry.filter fun r => selected.contains r.country
      { errors := fetchMessages cfetch ++ fetchMessages dfetch,
        warnings := [],
        charts :=
          [{ data := confirmedFiltered, x := "Date", y := yField metric,
             color := "Country/Region",
             title := metricName metric ++ " COVID-19 Cases by Country" },
           { data := deathsFiltered, x := "Date", y := yField metric,
             color := "Country/Region",
             title := metricName metric ++ " COVID-19 Deaths by Country" }],
        metrics := selected.map fun c =>
          { country := c,
            cases := ((confirmedFiltered.filter fun r => r.country == c).map
              fun r => r.cases).getLast?,
            deaths := ((deathsFiltered.filter fun r => r.country == c).map
              fun r => r.cases).getLast? } }
  | _, _ =>
    { errors := fetchMessages cfetch ++ fetchMessages dfetch ++
        ["Failed to load data. Please try again later."],
      warnings := [], charts := [], metrics := [] }

unseal List.merge List.mergeSort

/-- Drop the `Daily` column, recovering a long-table row. -/
def eraseDaily (r : DailyRow) : LongRow :=
  { country := r.country, date := r.date, cases := r.cases }

/-- Successive differences of one country's rows: `prev` is the cumulative
value of the country's previous row (`none` before its first row). -/
def deltaSeq : Option Int → List LongRow → List DailyRow
  | _, [] => []
  | prev, r :: rest =>
    { country := r.country, date := r.date, cases := r.cases,
      daily :=
        match prev with
        | some p => r.cases - p
        | none => 0 } :: deltaSeq (some r.cases) rest

/-! ### Helper lemmas -/

theorem addDaily_map_erase (l : List LongRow) :
    ∀ seen, (addDaily seen l).map eraseDaily = l := by
  induction l with
  | nil => intro seen; rfl
  | cons r rest ih => intro seen; simp [addDaily, eraseDaily, ih]

theorem deltaSeq_map_erase (l : List LongRow) :
    ∀ p, (deltaSeq p l).map eraseDaily = l := by
  induction l with
  | nil => intro p; rfl
  | cons r rest ih => intro p; simp [deltaSeq, eraseDaily, ih]

theorem addDaily_filter (l : List LongRow) (c : String) :
    ∀ seen, (addDaily seen l).filter (fun r => r.country == c)
      = deltaSeq (seen.lookup c) (l.filter fun r => r.country == c) := by
  induction l with
  | nil => intro seen; rfl
  | cons r rest ih =>
    intro seen
    by_cases hc : r.country = c
    · subst hc
      simp only [addDaily, List.filter_cons, beq_self_eq_true, if_pos]
      rw [ih]
      simp [deltaSeq, List.lookup_cons]
    · have h1 : (r.country == c) = false := by simp [hc]
      have h2 : (c == r.country) = false := by
        simp only [beq_eq_false_iff_ne]
        exact fun h => hc h.symm
      simp only [addDaily, List.filter_cons, h1, if_neg, Bool.false_eq_true,
        not_false_iff]
      rw [ih]
      simp [List.lookup_cons, h2]

theorem deltaSeq_getElem_zero (l : List LongRow)
    (dr : DailyRow) (h : (deltaSeq none l)[0]? = some dr) :
    dr.daily = 0 := by
  cases l with
  | nil => simp [deltaSeq] at h
  | cons r rest =>
    simp only [deltaSeq, List.getElem?_cons_zero, Option.some_inj] at h
    subst h
    rfl

theorem deltaSeq_getElem_succ (l : List LongRow) :
    ∀ (p : Option Int) (i : Nat) (a b : LongRow),
      l[i]? = some a → l[i + 1]? = some b →
      (deltaSeq p l)[i + 1]?
        = some { country := b.country, date := b.date, cases := b.cases,
                 daily := b.cases - a.cases } := by
  induction l with
  | nil => intro p i a b ha _; simp at ha
  | cons r rest ih =>
    intro p i a b ha hb
    cases i with
    | zero =>
      simp only [List.getElem?_cons_zero, Option.some_inj] at ha
      subst ha
      simp only [List.getElem?_cons_succ] at hb
      cases rest with
      | nil => simp at hb
      | cons r2 rest2 =>
        simp only [List.getElem?_cons_zero, Option.some_inj] at hb
        subst hb
        simp [deltaSeq]
    | succ i =>
      simp only [List.getElem?_cons_succ] at ha hb
      simp only [deltaSeq, List.getElem?_cons_succ]
      exact ih (some r.cases) i a b ha hb

theorem lookup_nil_eq_none (c : String) :
    (([] : List (String × Int)).lookup c) = none := rfl

theorem calc_filter (rows : List LongRow) (c : String) :
    (calculate_daily_cases rows).filter (fun r => r.country == c)
      = deltaSeq none ((rows.mergeSort dateLe).filter fun r => r.country == c) := by
  unfold calculate_daily_cases
  rw [addDaily_filter, lookup_nil_eq_none]

theorem dateLe_trans (a b c : LongRow) (h1 : dateLe a b = true)
    (h2 : dateLe b c = true) : dateLe a c = true := by
  simp [dateLe] at *; omega

theorem dateLe_total (a b : LongRow) : (dateLe a b || dateLe b a) = true := by
  simp [dateLe]; omega

theorem mergeSort_dateLe_sorted (rows : List LongRow) :
    (rows.mergeSort dateLe).Pairwise fun a b => a.date ≤ b.date := by
  have h := List.sorted_mergeSort dateLe_trans dateLe_total rows
  refine h.imp ?_
  intro a b hab
  simpa [dateLe] using hab

theorem calc_map_erase (rows : List LongRow) :
    (calculate_daily_cases rows).map eraseDaily = rows.mergeSort dateLe := by
  unfold calculate_daily_cases
  exact addDaily_map_erase _ []

theorem calc_erase_perm (rows : List LongRow) :
    ((calculate_daily_cases rows).map eraseDaily).Perm rows := by
  rw [calc_map_erase]
  exact List.mergeSort_perm rows dateLe

theorem calc_sorted (rows : List LongRow) :
    (calculate_daily_cases rows).Pairwise fun a b => a.date ≤ b.date := by
  have h := mergeSort_dateLe_sorted rows
  rw [← calc_map_erase rows] at h
  rw [List.pairwise_map] at h
  exact h.imp fun hab => hab

theorem pairwise_date_lt (lf : List LongRow)
    (hle : lf.Pairwise fun a b => a.date ≤ b.date)
    (hnd : (lf.map fun r => r.date).Nodup) :
    lf.Pairwise fun a b => a.date < b.date := by
  rw [List.Nodup, List.pairwise_map] at hnd
  exact (hle.and hnd).imp fun h => lt_of_le_of_ne h.1 h.2

theorem no_between (lf : List LongRow)
    (hlt : lf.Pairwise fun a b => a.date < b.date)
    (i : Nat) (p q : LongRow) (hp : lf[i]? = some p) (hq : lf[i + 1]? = some q)
    (x : LongRow) (hx : x ∈ lf) :
    ¬(p.date < x.date ∧ x.date < q.date) := by
  rw [List.pairwise_iff_getElem] at hlt
  obtain ⟨hpl, hpe⟩ := List.getElem?_eq_some.1 hp
  obtain ⟨hql, hqe⟩ := List.getElem?_eq_some.1 hq
  obtain ⟨j, hjl, hje⟩ := List.mem_iff_getElem.1 hx
  rintro ⟨h1, h2⟩
  rcases Nat.lt_trichotomy j i with hj | hj | hj
  · have hd := hlt j i hjl hpl hj
    rw [hje, hpe] at hd
    omega
  · subst hj
    rw [hje] at hpe
    subst hpe
    omega
  · by_cases hj2 : j = i + 1
    · subst hj2
      rw [hje] at hqe
      subst hqe
      omega
    · have hij : i + 1 < j := by omega
      have hd := hlt (i + 1) j hql hjl hij
      rw [hqe, hje] at hd
      omega

theorem nodup_transfer (rows : List LongRow) (c : String)
    (h : ((rows.filter fun r => r.country == c).map fun r => r.date).Nodup) :
    (((rows.mergeSort dateLe).filter fun r => r.country == c).map
      fun r => r.date).Nodup := by
  have hp : ((rows.mergeSort dateLe).filter fun r => r.country == c).Perm
      (rows.filter fun r => r.country == c) :=
    (List.mergeSort_perm rows dateLe).filter _
  exact ((hp.map fun r => r.date).nodup_iff).2 h

theorem calc_head (rows : List LongRow) (c : String) (dr : DailyRow)
    (h : ((calculate_daily_cases rows).filter fun r => r.country == c)[0]?
      = some dr) :
    dr.daily = 0 := by
  rw [calc_filter] at h
  exact deltaSeq_getElem_zero _ dr h

theorem calc_consec (rows : List LongRow) (c : String)
    (hnd : ((rows.filter fun r => r.country == c).map fun r => r.date).Nodup)
    (i : Nat) (p q : DailyRow)
    (hp : ((calculate_daily_cases rows).filter fun r => r.country == c)[i]?
      = some p)
    (hq : ((calculate_daily_cases rows).filter fun r => r.country == c)[i + 1]?
      = some q) :
    q.daily = q.cases - p.cases ∧ p.date < q.date ∧
      ∀ x ∈ (calculate_daily_cases rows).filter fun r => r.country == c,
        ¬(p.date < x.date ∧ x.date < q.date) := by
  have hout := calc_filter rows c
  rw [hout] at hp hq
  have herase := deltaSeq_map_erase
    ((rows.mergeSort dateLe).filter fun r => r.country == c) none
  have hpe : ((rows.mergeSort dateLe).filter fun r => r.country == c)[i]?
      = some (eraseDaily p) := by
    rw [← herase, List.getElem?_map, hp]; rfl
  have hqe : ((rows.mergeSort dateLe).filter fun r => r.country == c)[i + 1]?
      = some (eraseDaily q) := by
    rw [← herase, List.getElem?_map, hq]; rfl
  have hsucc := deltaSeq_getElem_succ
    ((rows.mergeSort dateLe).filter fun r => r.country == c) none i
    (eraseDaily p) (eraseDaily q) hpe hqe
  rw [hq] at hsucc
  have hqd : q.daily = q.cases - p.cases := by
    have := Option.some_inj.1 hsucc
    have hd := congrArg DailyRow.daily this
    simpa [eraseDaily] using hd
  have hsort : ((rows.mergeSort dateLe).filter fun r => r.country == c).Pairwise
      fun a b => a.date ≤ b.date :=
    (mergeSort_dateLe_sorted rows).filter _
  have hlt := pairwise_date_lt _ hsort (nodup_transfer rows c hnd)
  have hdates : p.date < q.date := by
    rw [List.pairwise_iff_getElem] at hlt
    obtain ⟨hpl, hpe2⟩ := List.getElem?_eq_some.1 hpe
    obtain ⟨hql, hqe2⟩ := List.getElem?_eq_some.1 hqe
    have hd := hlt i (i + 1) hpl hql (Nat.lt_succ_self i)
    rw [hpe2, hqe2] at hd
    exact hd
  refine ⟨hqd, hdates, ?_⟩
  intro x hx
  rw [hout] at hx
  have hex : eraseDaily x ∈ (rows.mergeSort dateLe).filter
      fun r => r.country == c := by
    rw [← herase]
    exact List.mem_map_of_mem eraseDaily hx
  exact no_between _ hlt i (eraseDaily p) (eraseDaily q) hpe hqe
    (eraseDaily x) hex

/-! ### Claims -/

/-- C1: for a long table sorted ascending by date, `calculate_daily_cases`
gives each country's first row a delta of zero, and each subsequent row of a
country a delta equal to its cumulative value minus the cumulative value of
the same country's immediately preceding date (the previous row of that
country, whose date is strictly smaller with no row of that country in
between). -/
theorem claim_C1 (rows : List LongRow) (c : String)
    (_hsorted : rows.Pairwise fun a b => a.date ≤ b.date)
    (hnd : ((rows.filter fun r => r.country == c).map fun r => r.date).Nodup) :
    (∀ dr, ((calculate_daily_cases rows).filter fun r => r.country == c)[0]?
        = some dr → dr.daily = 0) ∧
    (∀ i p q,
      ((calculate_daily_cases rows).filter fun r => r.country == c)[i]?
        = some p →
      ((calculate_daily_cases rows).filter fun r => r.country == c)[i + 1]?
        = some q →
      q.daily = q.cases - p.cases ∧ p.date < q.date ∧
        ∀ x ∈ (calculate_daily_cases rows).filter fun r => r.country == c,
          ¬(p.date < x.date ∧ x.date < q.date)) :=
  ⟨fun dr h => calc_head rows c dr h,
   fun i p q hp hq => calc_consec rows c hnd i p q hp hq⟩

theorem claim_C1_witness :
    (∀ dr, ((calculate_daily_cases
        [{ country := "Testland", date := 1, cases := 10 },
         { country := "Testland", date := 2, cases := 15 }]).filter
        fun r => r.country == "Testland")[0]? = some dr → dr.daily = 0) ∧
    (∀ i p q,
      ((calculate_daily_cases
        [{ country := "Testland", date := 1, cases := 10 },
         { country := "Testland", date := 2, cases := 15 }]).filter
        fun r => r.country == "Testland")[i]? = some p →
      ((calculate_daily_cases
        [{ country := "Testland", date := 1, cases := 10 },
         { country := "Testland", date := 2, cases := 15 }]).filter
        fun r => r.country == "Testland")[i + 1]? = some q →
      q.daily = q.cases - p.cases ∧ p.date < q.date ∧
        ∀ x ∈ (calculate_daily_cases
          [{ country := "Testland", date := 1, cases := 10 },
           { country := "Testland", date := 2, cases := 15 }]).filter
          fun r => r.country == "Testland",
          ¬(p.date < x.date ∧ x.date < q.date)) :=
  claim_C1
    [{ country := "Testland", date := 1, cases := 10 },
     { country := "Testland", date := 2, cases := 15 }]
    "Testland" (by decide) (by decide)

/-- C2: round-trip law — in the output of `calculate_daily_cases`, for every
country and every row after that country's first, the cumulative value
equals the previous row's cumulative value plus the delta, the previous row
of the country being the one at the immediately preceding date. -/
theorem claim_C2 (rows : List LongRow) (c : String)
    (hnd : ((rows.filter fun r => r.country == c).map fun r => r.date).Nodup) :
    ∀ i p q,
      ((calculate_daily_cases rows).filter fun r => r.country == c)[i]?
        = some p →
      ((calculate_daily_cases rows).filter fun r => r.country == c)[i + 1]?
        = some q →
      q.cases = p.cases + q.daily ∧ p.date < q.date := by
  intro i p q hp hq
  obtain ⟨hd, hlt, _⟩ := calc_consec rows c hnd i p q hp hq
  exact ⟨by omega, hlt⟩

theorem claim_C2_witness :
    ({ country := "Testland", date := 2, cases := 15, daily := 5 } :
        DailyRow).cases
      = ({ country := "Testland", date := 1, cases := 10, daily := 0 } :
          DailyRow).cases
        + ({ country := "Testland", date := 2, cases := 15, daily := 5 } :
            DailyRow).daily ∧
    ({ country := "Testland", date := 1, cases := 10, daily := 0 } :
        DailyRow).date
      < ({ country := "Testland", date := 2, cases := 15, daily := 5 } :
          DailyRow).date :=
  claim_C2
    [{ country := "Testland", date := 1, cases := 10 },
     { country := "Testland", date := 2, cases := 15 }]
    "Testland" (by decide) 0
    { country := "Testland", date := 1, cases := 10, daily := 0 }
    { country := "Testland", date := 2, cases := 15, daily := 5 }
    (by decide) (by decide)

/-- C5: `calculate_daily_cases` preserves its input frame-wise — forgetting
the added `Daily` column, the output rows are exactly a permutation of the
input rows, with country, date and cumulative count unchanged. -/
theorem claim_C5 (rows : List LongRow) :
    ((calculate_daily_cases rows).map eraseDaily).Perm rows :=
  calc_erase_perm rows

/-- C6: when a fetch fails, `fetch_data` signals no-data (`none`) to the
caller without raising, and `main` shows an error message and returns for
that render cycle with no charts, no metric cards and no warning. -/
theorem claim_C6 (cf df : FetchResult) (selected : List String)
    (metric : MetricType)
    (h : fetch_data cf = none ∨ fetch_data df = none) :
    (∀ e, fetch_data (.err e) = none) ∧
    (main cf df selected metric).charts = [] ∧
    (main cf df selected metric).metrics = [] ∧
    (main cf df selected metric).warnings = [] ∧
    "Failed to load data. Please try again later."
      ∈ (main cf df selected metric).errors := by
  refine ⟨fun e => rfl, ?_⟩
  cases cf with
  | err e => cases df <;> simp [main, fetch_data]
  | ok t =>
    cases df with
    | err e => simp [main, fetch_data]
    | ok t2 => simp [fetch_data] at h

theorem claim_C6_witness :
    (∀ e, fetch_data (.err e) = none) ∧
    (main (.err "boom") (.ok { dates := [], rows := [] }) ["US"]
      .daily).charts = [] ∧
    (main (.err "boom") (.ok { dates := [], rows := [] }) ["US"]
      .daily).metrics = [] ∧
    (main (.err "boom") (.ok { dates := [], rows := [] }) ["US"]
      .daily).warnings = [] ∧
    "Failed to load data. Please try again later."
      ∈ (main (.err "boom") (.ok { dates := [], rows := [] }) ["US"]
        .daily).errors :=
  claim_C6 (.err "boom") (.ok { dates := [], rows := [] }) ["US"] .daily
    (Or.inl rfl)

/-- C7: with both tables loaded and an empty country selection, `main`
emits exactly the selection warning and returns with no chart and no metric
block. -/
theorem claim_C7 (t1 t2 : WideTable) (metric : MetricType) :
    main (.ok t1) (.ok t2) [] metric =
      { errors := [],
        warnings := ["Please select at least one country to visualize data."],
        charts := [], metrics := [] } := rfl

theorem meltCols_key_mem (rows : List RawRow) (c : String) (d : Nat) :
    ∀ (ds : List Nat) (j : Nat),
      ((c, d) ∈ (meltCols rows j ds).map fun r => (r.country, r.date)) ↔
        d ∈ ds ∧ ∃ r ∈ rows, r.country = c := by
  intro ds
  induction ds with
  | nil => intro j; simp [meltCols]
  | cons d' ds ih =>
    intro j
    rw [meltCols, List.map_append, List.mem_append, ih]
    have hcol : ((c, d) ∈ (meltCol rows j d').map fun r => (r.country, r.date))
        ↔ d' = d ∧ ∃ r ∈ rows, r.country = c := by
      rw [meltCol, List.map_map]
      simp only [List.mem_map, Function.comp, Prod.mk.injEq]
      constructor
      · rintro ⟨r, hr, hrc, hrd⟩
        exact ⟨hrd, r, hr, hrc⟩
      · rintro ⟨hrd, r, hr, hrc⟩
        exact ⟨r, hr, hrc, hrd⟩
    rw [hcol, List.mem_cons]
    constructor
    · rintro (⟨h1, h2⟩ | ⟨h1, h2⟩)
      · exact ⟨Or.inl h1.symm, h2⟩
      · exact ⟨Or.inr h1, h2⟩
    · rintro ⟨h1 | h1, h2⟩
      · exact Or.inl ⟨h1.symm, h2⟩
      · exact Or.inr ⟨h1, h2⟩

theorem groupKeys_nodup (m : List MeltedRow) : (groupKeys m).Nodup :=
  List.nodup_dedup _

theorem mem_groupKeys (m : List MeltedRow) (k : String × Nat) :
    k ∈ groupKeys m ↔ k ∈ m.map fun r => (r.country, r.date) := by
  rw [groupKeys, List.mem_dedup, List.mem_mergeSort]

theorem process_long_eq (t : WideTable) :
    (process_data t).1 = (groupKeys (melt t)).map fun k =>
      { country := k.1, date := k.2, cases := groupSum (melt t) k } := rfl

theorem process_keys (t : WideTable) :
    ((process_data t).1.map fun r => (r.country, r.date))
      = groupKeys (melt t) := by
  rw [process_long_eq, List.map_map]
  rw [show ((fun (r : LongRow) => (r.country, r.date)) ∘ fun (k : String × Nat) =>
    ({ country := k.1, date := k.2, cases := groupSum (melt t) k } : LongRow))
    = id from rfl, List.map_id]

/-- C10: the long table produced by `process_data` has at most one row per
`(country, date)` pair, and `calculate_daily_cases` preserves this
uniqueness, adding a column without adding or removing rows. -/
theorem claim_C10 (t : WideTable) (rows : List LongRow)
    (h : (rows.map fun r => (r.country, r.date)).Nodup) :
    ((process_data t).1.map fun r => (r.country, r.date)).Nodup ∧
    ((calculate_daily_cases rows).map fun r => (r.country, r.date)).Nodup := by
  constructor
  · rw [process_keys]; exact groupKeys_nodup _
  · have heq : ((calculate_daily_cases rows).map fun r => (r.country, r.date))
        = ((calculate_daily_cases rows).map eraseDaily).map
          fun r => (r.country, r.date) := by
      rw [List.map_map]; rfl
    rw [heq]
    exact (((calc_erase_perm rows).map fun r => (r.country, r.date)).nodup_iff).2 h

theorem claim_C10_witness :
    (((process_data { dates := [1, 2],
                      rows := [{ province := "", country := "Testland",
                                 lat := 0, long := 0,
                                 values := [10, 15] }] }).1.map
      fun r => (r.country, r.date)).Nodup ∧
    ((calculate_daily_cases
        [{ country := "Testland", date := 1, cases := 10 },
         { country := "Testland", date := 2, cases := 15 }]).map
      fun r => (r.country, r.date)).Nodup) :=
  claim_C10
    { dates := [1, 2],
      rows := [{ province := "", country := "Testland", lat := 0, long := 0,
                 values := [10, 15] }] }
    [{ country := "Testland", date := 1, cases := 10 },
     { country := "Testland", date := 2, cases := 15 }]
    (by decide)

/-- C3: for a wide table with `N` distinct date columns, the long table of
`process_data` has exactly `N` rows for each country present in the raw
table. -/
theorem claim_C3 (t : WideTable) (hdn : t.dates.Nodup) (c : String)
    (hc : c ∈ t.rows.map fun r => r.country) :
    ((process_data t).1.filter fun r => r.country == c).length
      = t.dates.length := by
  rw [process_long_eq, List.filter_map]
  rw [List.length_map]
  have hperm : ((groupKeys (melt t)).filter
      ((fun (r : LongRow) => r.country == c) ∘ fun k =>
        { country := k.1, date := k.2, cases := groupSum (melt t) k }))
      |>.Perm (t.dates.map fun d => (c, d)) := by
    rw [List.perm_ext_iff_of_nodup ((groupKeys_nodup _).filter _)
      (hdn.map fun d1 d2 hd => congrArg Prod.snd hd)]
    intro k
    obtain ⟨a, b⟩ := k
    rw [List.mem_filter, mem_groupKeys, melt, meltCols_key_mem]
    simp only [Function.comp, beq_iff_eq, List.mem_map]
    obtain ⟨r0, hr0, hr0c⟩ := List.mem_map.1 hc
    constructor
    · rintro ⟨⟨hb, _⟩, ha⟩
      exact ⟨b, hb, by rw [ha]⟩
    · rintro ⟨b', hb', heq⟩
      obtain ⟨hc', hbb⟩ := Prod.mk.inj heq
      subst hc'
      subst hbb
      exact ⟨⟨hb', r0, hr0, hr0c⟩, rfl⟩
  rw [hperm.length_eq, List.length_map]

theorem claim_C3_witness :
    ((process_data { dates := [1, 2],
                     rows := [{ province := "A", country := "X",
                                lat := 0, long := 0, values := [1, 4] },
                              { province := "B", country := "X",
                                lat := 0, long := 0,
                                values := [2, 5] }] }).1.filter
      fun r => r.country == "X").length
      = ({ dates := [1, 2],
           rows := [{ province := "A", country := "X", lat := 0, long := 0,
                      values := [1, 4] },
                    { province := "B", country := "X", lat := 0, long := 0,
                      values := [2, 5] }] } : WideTable).dates.length :=
  claim_C3
    { dates := [1, 2],
      rows := [{ province := "A", country := "X", lat := 0, long := 0,
                 values := [1, 4] },
               { province := "B", country := "X", lat := 0, long := 0,
                 values := [2, 5] }] }
    (by decide) "X" (by decide)

theorem meltCols_date_mem (rows : List RawRow) :
    ∀ (ds : List Nat) (j : Nat), ∀ mr ∈ meltCols rows j ds, mr.date ∈ ds := by
  intro ds
  induction ds with
  | nil => intro j mr h; simp [meltCols] at h
  | cons d' ds ih =>
    intro j mr h
    rw [meltCols, List.mem_append] at h
    rcases h with h | h
    · rw [meltCol] at h
      obtain ⟨r, _, rfl⟩ := List.mem_map.1 h
      exact List.mem_cons_self d' ds
    · exact List.mem_cons_of_mem d' (ih (j + 1) mr h)

theorem meltCol_filter_hit (c : String) (j d : Nat) :
    ∀ rows : List RawRow,
      (((meltCol rows j d).filter fun mr => mr.country == c && mr.date == d).map
        fun mr => mr.cases).sum
      = ((rows.filter fun r => r.country == c).map
          fun r => r.values.getD j 0).sum := by
  intro rows
  induction rows with
  | nil => rfl
  | cons r rs ih =>
    by_cases hr : r.country = c
    · simp only [meltCol, List.map_cons, List.filter_cons, hr,
        beq_self_eq_true, Bool.and_true, if_pos, List.map_cons, List.sum_cons]
      rw [show (meltCol rs j d) = rs.map fun r =>
        { province := r.province, country := r.country, lat := r.lat,
          long := r.long, date := d, cases := r.values.getD j 0 } from rfl]
        at ih
      rw [ih]
    · have h1 : (r.country == c) = false := by simp [hr]
      simp only [meltCol, List.map_cons, List.filter_cons, h1,
        beq_self_eq_true, Bool.and_true, Bool.false_eq_true, if_neg,
        not_false_iff]
      rw [show (meltCol rs j d) = rs.map fun r =>
        { province := r.province, country := r.country, lat := r.lat,
          long := r.long, date := d, cases := r.values.getD j 0 } from rfl]
        at ih
      rw [ih]

theorem meltCol_filter_miss (rows : List RawRow) (c : String)
    (j d' d : Nat) (hne : d' ≠ d) :
    (meltCol rows j d').filter (fun mr => mr.country == c && mr.date == d)
      = [] := by
  rw [List.filter_eq_nil_iff]
  intro mr hmr
  rw [meltCol] at hmr
  obtain ⟨r, _, rfl⟩ := List.mem_map.1 hmr
  simp [hne]

theorem sum_meltCols (rows : List RawRow) (c : String) :
    ∀ (ds : List Nat) (j0 jj d : Nat), ds.Nodup → ds[jj]? = some d →
      (((meltCols rows j0 ds).filter
          fun mr => mr.country == c && mr.date == d).map
        fun mr => mr.cases).sum
      = ((rows.filter fun r => r.country == c).map
          fun r => r.values.getD (j0 + jj) 0).sum := by
  intro ds
  induction ds with
  | nil => intro j0 jj d _ hd; simp at hd
  | cons d' ds ih =>
    intro j0 jj d hnd hd
    obtain ⟨hd', hnd2⟩ := List.nodup_cons.1 hnd
    rw [meltCols, List.filter_append, List.map_append, List.sum_append]
    cases jj with
    | zero =>
      rw [List.getElem?_cons_zero, Option.some_inj] at hd
      have hd2 : d = d' := hd.symm
      subst hd2
      have htail : (meltCols rows (j0 + 1) ds).filter
          (fun mr => mr.country == c && mr.date == d) = [] := by
        rw [List.filter_eq_nil_iff]
        intro mr hmr
        have hdm := meltCols_date_mem rows ds (j0 + 1) mr hmr
        simp only [Bool.and_eq_true, beq_iff_eq, not_and]
        intro _ hcontra
        exact hd' (hcontra ▸ hdm)
      rw [htail, meltCol_filter_hit c j0 d rows]
      simp
    | succ jj =>
      rw [List.getElem?_cons_succ] at hd
      have hdm : d ∈ ds := by
        obtain ⟨hlt, he⟩ := List.getElem?_eq_some.1 hd
        exact he ▸ List.getElem_mem hlt
      have hne : d' ≠ d := fun h => hd' (h ▸ hdm)
      rw [meltCol_filter_miss rows c j0 d' d hne]
      have harith : j0 + 1 + jj = j0 + (jj + 1) := by omega
      rw [show (([] : List MeltedRow).map fun mr => mr.cases).sum = 0 from rfl,
        zero_add, ih (j0 + 1) jj d hnd2 hd, harith]

theorem find?_eq_some_of_unique {α : Type _} (p : α → Bool) (a : α)
    (hp : ∀ x, p x = true ↔ x = a) :
    ∀ l : List α, a ∈ l → l.find? p = some a := by
  intro l
  induction l with
  | nil => intro h; simp at h
  | cons b t ih =>
    intro h
    by_cases hb : p b = true
    · rw [List.find?_cons_of_pos t hb, (hp b).1 hb]
    · rw [List.find?_cons_of_neg t hb]
      apply ih
      rcases List.mem_cons.1 h with rfl | h2
      · exact absurd ((hp a).2 rfl) hb
      · exact h2

/-- C4: for every country present in the raw table and every date column,
the long table of `process_data` holds at `(country, date)` exactly the sum
of that date's cells over all raw rows (national and sub-national) whose
country field is that country. -/
theorem claim_C4 (t : WideTable) (hdn : t.dates.Nodup)
    (_hlen : ∀ r ∈ t.rows, r.values.length = t.dates.length)
    (c : String) (hc : c ∈ t.rows.map fun r => r.country)
    (j d : Nat) (hd : t.dates[j]? = some d) :
    ((process_data t).1.find? fun r => r.country == c && r.date == d).map
        (fun r => r.cases)
      = some (((t.rows.filter fun r => r.country == c).map
          fun r => r.values.getD j 0).sum) := by
  rw [process_long_eq, List.find?_map]
  have hmem : ((c, d) : String × Nat) ∈ groupKeys (melt t) := by
    rw [mem_groupKeys, melt, meltCols_key_mem]
    have hdm : d ∈ t.dates := by
      obtain ⟨hlt, he⟩ := List.getElem?_eq_some.1 hd
      exact he ▸ List.getElem_mem hlt
    obtain ⟨r0, hr0, hr0c⟩ := List.mem_map.1 hc
    exact ⟨hdm, r0, hr0, hr0c⟩
  have hfind : (groupKeys (melt t)).find?
      ((fun (r : LongRow) => r.country == c && r.date == d) ∘ fun k =>
        { country := k.1, date := k.2, cases := groupSum (melt t) k })
      = some (c, d) := by
    apply find?_eq_some_of_unique _ ((c, d) : String × Nat) ?_ _ hmem
    intro x
    obtain ⟨x1, x2⟩ := x
    show (x1 == c && x2 == d) = true ↔ (x1, x2) = (c, d)
    simp
  rw [hfind]
  show some (groupSum (melt t) (c, d)) = _
  congr 1
  have hs := sum_meltCols t.rows c t.dates 0 j d hdn hd
  rw [Nat.zero_add] at hs
  exact hs

theorem claim_C4_witness :
    ((process_data { dates := [1, 2],
                     rows := [{ province := "A", country := "X",
                                lat := 0, long := 0, values := [1, 4] },
                              { province := "B", country := "X",
                                lat := 0, long := 0, values := [2, 5] },
                              { province := "", country := "Y",
                                lat := 0, long := 0,
                                values := [7, 7] }] }).1.find?
        fun r => r.country == "X" && r.date == 2).map (fun r => r.cases)
      = some (((({ dates := [1, 2],
                   rows := [{ province := "A", country := "X",
                              lat := 0, long := 0, values := [1, 4] },
                            { province := "B", country := "X",
                              lat := 0, long := 0, values := [2, 5] },
                            { province := "", country := "Y",
                              lat := 0, long := 0,
                              values := [7, 7] }] } : WideTable)).rows.filter
          (fun r => r.country == "X")).map
            (fun r => r.values.getD 1 0)).sum :=
  claim_C4
    { dates := [1, 2],
      rows := [{ province := "A", country := "X", lat := 0, long := 0,
                 values := [1, 4] },
               { province := "B", country := "X", lat := 0, long := 0,
                 values := [2, 5] },
               { province := "", country := "Y", lat := 0, long := 0,
                 values := [7, 7] }] }
    (by decide) (by decide) "X" (by decide) 1 2 (by decide)

theorem getLast_rel {α : Type _} {R : α → α → Prop} :
    ∀ (l : List α) (h : l ≠ []), l.Pairwise R → ∀ x ∈ l,
      x = l.getLast h ∨ R x (l.getLast h) := by
  intro l
  induction l with
  | nil => intro h; exact absurd rfl h
  | cons a t ih =>
    intro h hp x hx
    cases t with
    | nil =>
      rcases List.mem_cons.1 hx with rfl | hx2
      · left; rfl
      · simp at hx2
    | cons b t2 =>
      have ht : (b :: t2) ≠ [] := by simp
      rw [List.getLast_cons ht]
      rcases List.mem_cons.1 hx with rfl | hx2
      · right
        exact (List.pairwise_cons.1 hp).1 _ (List.getLast_mem ht)
      · exact ih ht (List.pairwise_cons.1 hp).2 x hx2

theorem main_metrics (t1 t2 : WideTable) (a : String) (sel : List String)
    (metric : MetricType) :
    (main (.ok t1) (.ok t2) (a :: sel) metric).metrics
      = (a :: sel).map fun c =>
          { country := c,
            cases := ((((calculate_daily_cases (process_data t1).1).filter
                fun r => (a :: sel).contains r.country).filter
                fun r => r.country == c).map fun r => r.cases).getLast?,
            deaths := ((((calculate_daily_cases (process_data t2).1).filter
                fun r => (a :: sel).contains r.country).filter
                fun r => r.country == c).map fun r => r.cases).getLast? } := rfl

theorem metric_lookup (long : List LongRow) (selected : List String)
    (c : String) (hc : c ∈ selected)
    (hex : ∃ r ∈ long, r.country = c) :
    ∃ rc ∈ (calculate_daily_cases long).filter
        fun r => selected.contains r.country,
      rc.country = c ∧
      ((((calculate_daily_cases long).filter
          fun r => selected.contains r.country).filter
          fun r => r.country == c).map fun r => r.cases).getLast?
        = some rc.cases ∧
      ∀ x ∈ (calculate_daily_cases long).filter
          fun r => selected.contains r.country,
        x.country = c → x.date ≤ rc.date := by
  obtain ⟨r0, hr0, hr0c⟩ := hex
  have hmm : r0 ∈ (calculate_daily_cases long).map eraseDaily :=
    (calc_erase_perm long).mem_iff.2 hr0
  obtain ⟨dr, hdr, hdre⟩ := List.mem_map.1 hmm
  have hdrc : dr.country = c := by
    have h := congrArg LongRow.country hdre
    simpa [eraseDaily, hr0c] using h
  have hcontains : selected.contains dr.country = true := by
    rw [hdrc]
    exact List.elem_eq_true_of_mem hc
  have hdcf : dr ∈ (calculate_daily_cases long).filter
      (fun r => selected.contains r.country) :=
    List.mem_filter.2 ⟨hdr, hcontains⟩
  have hdlc : dr ∈ ((calculate_daily_cases long).filter
      fun r => selected.contains r.country).filter
      fun r => r.country == c :=
    List.mem_filter.2 ⟨hdcf, by rw [hdrc]; exact beq_self_eq_true c⟩
  have hlcne : (((calculate_daily_cases long).filter
      fun r => selected.contains r.country).filter
      fun r => r.country == c) ≠ [] :=
    List.ne_nil_of_mem hdlc
  have hsorted : (((calculate_daily_cases long).filter
      fun r => selected.contains r.country).filter
      fun r => r.country == c).Pairwise fun a b => a.date ≤ b.date :=
    ((calc_sorted long).filter _).filter _
  refine ⟨(((calculate_daily_cases long).filter
      fun r => selected.contains r.country).filter
      fun r => r.country == c).getLast hlcne, ?_, ?_, ?_, ?_⟩
  · exact (List.mem_filter.1 (List.getLast_mem hlcne)).1
  · have h := (List.mem_filter.1 (List.getLast_mem hlcne)).2
    exact beq_iff_eq.1 h
  · rw [List.getLast?_map, List.getLast?_eq_getLast _ hlcne]
    rfl
  · intro x hx hxc
    have hxlc : x ∈ ((calculate_daily_cases long).filter
        fun r => selected.contains r.country).filter
        fun r => r.country == c :=
      List.mem_filter.2 ⟨hx, by rw [hxc]; exact beq_self_eq_true c⟩
    rcases getLast_rel _ hlcne hsorted x hxlc with h | h
    · subst h
      exact Nat.le_refl _
    · exact h

/-- C8: for a non-empty selection, the metric card of each selected country
shows that country's cumulative count at a row of the filtered table whose
date is maximal for that country — the positional last-row lookup after
date-sorting yields the value at the most recent date present, for both the
cases table and the deaths table. -/
theorem claim_C8 (t1 t2 : WideTable) (selected : List String)
    (metric : MetricType) (c : String) (hne : selected ≠ [])
    (hc : c ∈ selected)
    (hc1 : ∃ r ∈ (process_data t1).1, r.country = c)
    (hc2 : ∃ r ∈ (process_data t2).1, r.country = c) :
    ∀ card ∈ (main (.ok t1) (.ok t2) selected metric).metrics,
      card.country = c →
      (∃ rc ∈ (calculate_daily_cases (process_data t1).1).filter
          fun r => selected.contains r.country,
        rc.country = c ∧ card.cases = some rc.cases ∧
        ∀ x ∈ (calculate_daily_cases (process_data t1).1).filter
            fun r => selected.contains r.country,
          x.country = c → x.date ≤ rc.date) ∧
      (∃ rd ∈ (calculate_daily_cases (process_data t2).1).filter
          fun r => selected.contains r.country,
        rd.country = c ∧ card.deaths = some rd.cases ∧
        ∀ x ∈ (calculate_daily_cases (process_data t2).1).filter
            fun r => selected.contains r.country,
          x.country = c → x.date ≤ rd.date) := by
  intro card hcard hcc
  obtain ⟨a, sel, rfl⟩ : ∃ a sel, selected = a :: sel := by
    cases selected with
    | nil => exact absurd rfl hne
    | cons a sel => exact ⟨a, sel, rfl⟩
  rw [main_metrics] at hcard
  obtain ⟨c', hc', rfl⟩ := List.mem_map.1 hcard
  have hceq : c' = c := hcc
  subst hceq
  constructor
  · obtain ⟨rc, h1, h2, h3, h4⟩ := metric_lookup (process_data t1).1
      (a :: sel) c' hc hc1
    exact ⟨rc, h1, h2, h3, h4⟩
  · obtain ⟨rd, h1, h2, h3, h4⟩ := metric_lookup (process_data t2).1
      (a :: sel) c' hc hc2
    exact ⟨rd, h1, h2, h3, h4⟩

theorem claim_C8_witness :
    (∃ rc ∈ (calculate_daily_cases (process_data
          { dates := [1, 2],
            rows := [{ province := "", country := "Testland",
                       lat := 0, long := 0, values := [10, 15] }] }).1).filter
          fun r => ["Testland"].contains r.country,
        rc.country = "Testland" ∧ some (15 : Int) = some rc.cases ∧
        ∀ x ∈ (calculate_daily_cases (process_data
            { dates := [1, 2],
              rows := [{ province := "", country := "Testland",
                         lat := 0, long := 0,
                         values := [10, 15] }] }).1).filter
            fun r => ["Testland"].contains r.country,
          x.country = "Testland" → x.date ≤ rc.date) ∧
    (∃ rd ∈ (calculate_daily_cases (process_data
          { dates := [1, 2],
            rows := [{ province := "", country := "Testland",
                       lat := 0, long := 0, values := [1, 2] }] }).1).filter
          fun r => ["Testland"].contains r.country,
        rd.country = "Testland" ∧ some (2 : Int) = some rd.cases ∧
        ∀ x ∈ (calculate_daily_cases (process_data
            { dates := [1, 2],
              rows := [{ province := "", country := "Testland",
                         lat := 0, long := 0, values := [1, 2] }] }).1).filter
            fun r => ["Testland"].contains r.country,
          x.country = "Testland" → x.date ≤ rd.date) :=
  claim_C8
    { dates := [1, 2],
      rows := [{ province := "", country := "Testland", lat := 0, long := 0,
                 values := [10, 15] }] }
    { dates := [1, 2],
      rows := [{ province := "", country := "Testland", lat := 0, long := 0,
                 values := [1, 2] }] }
    ["Testland"] .cumulative "Testland" (by decide) (by decide)
    (by decide) (by decide)
    { country := "Testland", cases := some 15, deaths := some 2 }
    (by decide) rfl

theorem getLast_none_iff (cf : List DailyRow) (c : String) :
    (((cf.filter fun r => r.country == c).map fun r => r.cases).getLast?
        = none)
      ↔ ∀ r ∈ cf, r.country ≠ c := by
  rw [List.getLast?_eq_none_iff, List.map_eq_nil_iff, List.filter_eq_nil_iff]
  simp only [beq_iff_eq]

/-- C9: the `.iloc[-1]` lookups behind each Latest Statistics card are
in-bounds exactly when the selected country has at least one row in the
respective filtered table (the lookup yields `none` — python raises
`IndexError` — iff the country has no row); with a selection drawn from the
confirmed table's country list, a country absent from the deaths table does
reach the deaths lookup's error branch, and when every selected country
appears in both filtered tables the error branch is unreachable. -/
theorem claim_C9 :
    (∀ (t1 t2 : WideTable) (selected : List String) (metric : MetricType)
        (c : String),
      ∀ card ∈ (main (.ok t1) (.ok t2) selected metric).metrics,
        card.country = c →
        ((card.cases = none ↔
            ∀ r ∈ (calculate_daily_cases (process_data t1).1).filter
              fun r => selected.contains r.country, r.country ≠ c) ∧
         (card.deaths = none ↔
            ∀ r ∈ (calculate_daily_cases (process_data t2).1).filter
              fun r => selected.contains r.country, r.country ≠ c) ∧
         ((∃ r ∈ (calculate_daily_cases (process_data t1).1).filter
              fun r => selected.contains r.country, r.country = c) →
          (∃ r ∈ (calculate_daily_cases (process_data t2).1).filter
              fun r => selected.contains r.country, r.country = c) →
          card.cases ≠ none ∧ card.deaths ≠ none))) ∧
    ((main
        (.ok { dates := [1],
               rows := [{ province := "", country := "US", lat := 0,
                          long := 0, values := [5] }] })
        (.ok { dates := [1],
               rows := [{ province := "", country := "Canada", lat := 0,
                          long := 0, values := [3] }] })
        ["US"] .cumulative).metrics
        = [{ country := "US", cases := some 5, deaths := none }] ∧
      "US" ∈ (process_data
        { dates := [1],
          rows := [{ province := "", country := "US", lat := 0,
                     long := 0, values := [5] }] }).2) := by
  constructor
  · intro t1 t2 selected metric c card hcard hcc
    cases selected with
    | nil => simp [main, fetch_data] at hcard
    | cons a sel =>
      rw [main_metrics] at hcard
      obtain ⟨c', hc', rfl⟩ := List.mem_map.1 hcard
      have hceq : c' = c := hcc
      subst hceq
      have h1 := getLast_none_iff ((calculate_daily_cases
        (process_data t1).1).filter
        fun r => (a :: sel).contains r.country) c'
      have h2 := getLast_none_iff ((calculate_daily_cases
        (process_data t2).1).filter
        fun r => (a :: sel).contains r.country) c'
      refine ⟨h1, h2, ?_⟩
      intro hex1 hex2
      constructor
      · intro hnone
        obtain ⟨r, hr, hrc⟩ := hex1
        exact (h1.1 hnone r hr) hrc
      · intro hnone
        obtain ⟨r, hr, hrc⟩ := hex2
        exact (h2.1 hnone r hr) hrc
  · exact ⟨by decide, by decide⟩

theorem claim_C9_witness :
    ((({ country := "US", cases := some 5, deaths := none } :
        MetricCard).cases = none ↔
        ∀ r ∈ (calculate_daily_cases (process_data
            { dates := [1],
              rows := [{ province := "", country := "US", lat := 0,
                         long := 0, values := [5] }] }).1).filter
          fun r => ["US"].contains r.country, r.country ≠ "US") ∧
     (({ country := "US", cases := some 5, deaths := none } :
        MetricCard).deaths = none ↔
        ∀ r ∈ (calculate_daily_cases (process_data
            { dates := [1],
              rows := [{ province := "", country := "Canada", lat := 0,
                         long := 0, values := [3] }] }).1).filter
          fun r => ["US"].contains r.country, r.country ≠ "US") ∧
     ((∃ r ∈ (calculate_daily_cases (process_data
            { dates := [1],
              rows := [{ province := "", country := "US", lat := 0,
                         long := 0, values := [5] }] }).1).filter
          fun r => ["US"].contains r.country, r.country = "US") →
      (∃ r ∈ (calculate_daily_cases (process_data
            { dates := [1],
              rows := [{ province := "", country := "Canada", lat := 0,
                         long := 0, values := [3] }] }).1).filter
          fun r => ["US"].contains r.country, r.country = "US") →
      ({ country := "US", cases := some 5, deaths := none } :
        MetricCard).cases ≠ none ∧
      ({ country := "US", cases := some 5, deaths := none } :
        MetricCard).deaths ≠ none)) :=
  claim_C9.1
    { dates := [1],
      rows := [{ province := "", country := "US", lat := 0, long := 0,
                 values := [5] }] }
    { dates := [1],
      rows := [{ province := "", country := "Canada", lat := 0, long := 0,
                 values := [3] }] }
    ["US"] .cumulative "US"
    { country := "US", cases := some 5, deaths := none } (by decide) rfl

end CovidDashboard
